import Mathlib

/-!
Verification of the worker-thread-pool parameter logic of
`src/bin/varnishd/mgt/mgt_pool.c`.

The file under `src/` contains the two cross-updating setters
`tweak_thread_pool_min` / `tweak_thread_pool_max` and the `WRK_parspec[]`
table binding every `thread_*` parameter to a tweak function, a storage
field of `mgt_param`, and static minimum / maximum bound strings.

The generic helpers `tweak_uint`, `tweak_timeout` (mgt_param_tweak.c) and
`MCF_ParamConf` (mgt_param.c) are declared in `mgt/mgt_param.h` but their
bodies are not part of the provided sources; they are modelled from the
spec (see their doc comments).

Unsigned C arithmetic is `Nat` with explicit `% 2 ^ 32` where overflow can
occur; the `double`-valued timeout parameters are modelled over `ℚ` (all
bounds involved are exact decimal constants).
-/

namespace MgtPool

/-- `UINT_MAX + 1`: unsigned int arithmetic wraps modulo this. -/
def UINT_MAX_SUCC : Nat := 2 ^ 32

/-- The minimum / maximum columns of a `parspec` entry; `NULL` (no bound on
that side) is `none`.  `MCF_ParamConf` rewrites these at runtime. -/
structure Bounds (α : Type) where
  lo : Option α
  hi : Option α
deriving Repr, DecidableEq

/-- Range check of a `Nat`-valued parameter against its current bounds. -/
def inBoundsN (b : Bounds Nat) (v : Nat) : Bool :=
  (match b.lo with
   | none => true
   | some l => decide (l ≤ v)) &&
  (match b.hi with
   | none => true
   | some h => decide (v ≤ h))

/-- Range check of a `ℚ`-valued (C `double`) parameter against its bounds. -/
def inBoundsQ (b : Bounds ℚ) (v : ℚ) : Bool :=
  (match b.lo with
   | none => true
   | some l => decide (l ≤ v)) &&
  (match b.hi with
   | none => true
   | some h => decide (v ≤ h))

/-- The `mgt_param` storage fields written by the `WRK_parspec[]` table
(unsigned fields as `Nat`, `double` fields as `ℚ`). -/
structure MgtParam where
  wthread_pools : Nat
  wthread_min : Nat
  wthread_max : Nat
  wthread_reserve : Nat
  wthread_stats_rate : Nat
  wthread_queue_limit : Nat
  wthread_timeout : ℚ
  wthread_watchdog : ℚ
  wthread_destroy_delay : ℚ
  wthread_add_delay : ℚ
  wthread_fail_delay : ℚ
deriving Repr, DecidableEq

/-- The parameter state: the stored values plus the current (static or
`MCF_ParamConf`-updated) bounds of each `WRK_parspec[]` entry. -/
structure ParState where
  prm : MgtParam
  b_pools : Bounds Nat
  b_max : Bounds Nat
  b_min : Bounds Nat
  b_reserve : Bounds Nat
  b_stats_rate : Bounds Nat
  b_queue_limit : Bounds Nat
  b_timeout : Bounds ℚ
  b_watchdog : Bounds ℚ
  b_destroy_delay : Bounds ℚ
  b_add_delay : Bounds ℚ
  b_fail_delay : Bounds ℚ
deriving Repr, DecidableEq

/-- Modelled from the spec: `tweak_uint` (mgt_param_tweak.c, body not in
`src/`) is the typed setter for unsigned parameters — it "rejects
out-of-range values", leaving the Parameter Set unchanged, and otherwise
stores the requested value.  A requested value is representable as C
`unsigned` only below `2 ^ 32`; in range it is returned for storage
(`some v`), otherwise the call fails (`none`, the C `-1` path). -/
def tweak_uint (b : Bounds Nat) (arg : Nat) : Option Nat :=
  if arg < UINT_MAX_SUCC ∧ inBoundsN b arg = true then some arg else none

/-- Modelled from the spec: `tweak_timeout` (mgt_param_tweak.c, body not in
`src/`) is the typed setter for `double`-valued duration parameters; it
rejects values outside the entry's bounds and otherwise stores the value. -/
def tweak_timeout (b : Bounds ℚ) (arg : ℚ) : Option ℚ :=
  if inBoundsQ b arg = true then some arg else none

/-- `tweak_thread_pool_min` (mgt_pool.c lines 58–70): validate and store via
`tweak_uint` (bounds of the `thread_pool_min` entry); on failure return
`-1` with nothing changed; on success run
`MCF_ParamConf(MCF_MINIMUM, "thread_pool_max", "%u", mgt_param.wthread_min)`
and
`MCF_ParamConf(MCF_MAXIMUM, "thread_pool_reserve", "%u", mgt_param.wthread_min * 950 / 1000)`
(the product is C `unsigned` multiplication, wrapping modulo `2 ^ 32`),
then return `0`. -/
def tweak_thread_pool_min (s : ParState) (arg : Nat) : Int × ParState :=
  match tweak_uint s.b_min arg with
  | none => (-1, s)
  | some v =>
      let s1 := { s with prm := { s.prm with wthread_min := v } }
      let s2 := { s1 with b_max := { s1.b_max with lo := some s1.prm.wthread_min } }
      let s3 := { s2 with b_reserve := { s2.b_reserve with
        hi := some (s2.prm.wthread_min * 950 % UINT_MAX_SUCC / 1000) } }
      (0, s3)

/-- `tweak_thread_pool_max` (mgt_pool.c lines 72–83): validate and store via
`tweak_uint` (bounds of the `thread_pool_max` entry); on failure return
`-1` with nothing changed; on success run
`MCF_ParamConf(MCF_MAXIMUM, "thread_pool_min", "%u", mgt_param.wthread_max)`
and return `0`. -/
def tweak_thread_pool_max (s : ParState) (arg : Nat) : Int × ParState :=
  match tweak_uint s.b_max arg with
  | none => (-1, s)
  | some v =>
      let s1 := { s with prm := { s.prm with wthread_max := v } }
      let s2 := { s1 with b_min := { s1.b_min with hi := some s1.prm.wthread_max } }
      (0, s2)

/-- The `thread_pools` entry: plain `tweak_uint` into `wthread_pools`. -/
def set_thread_pools (s : ParState) (arg : Nat) : Int × ParState :=
  match tweak_uint s.b_pools arg with
  | none => (-1, s)
  | some v => (0, { s with prm := { s.prm with wthread_pools := v } })

/-- The `thread_pool_reserve` entry: plain `tweak_uint` into `wthread_reserve`. -/
def set_thread_pool_reserve (s : ParState) (arg : Nat) : Int × ParState :=
  match tweak_uint s.b_reserve arg with
  | none => (-1, s)
  | some v => (0, { s with prm := { s.prm with wthread_reserve := v } })

/-- The `thread_stats_rate` entry: plain `tweak_uint` into `wthread_stats_rate`. -/
def set_thread_stats_rate (s : ParState) (arg : Nat) : Int × ParState :=
  match tweak_uint s.b_stats_rate arg with
  | none => (-1, s)
  | some v => (0, { s with prm := { s.prm with wthread_stats_rate := v } })

/-- The `thread_queue_limit` entry: plain `tweak_uint` into `wthread_queue_limit`. -/
def set_thread_queue_limit (s : ParState) (arg : Nat) : Int × ParState :=
  match tweak_uint s.b_queue_limit arg with
  | none => (-1, s)
  | some v => (0, { s with prm := { s.prm with wthread_queue_limit := v } })

/-- The `thread_pool_timeout` entry: `tweak_timeout` into `wthread_timeout`. -/
def set_thread_pool_timeout (s : ParState) (arg : ℚ) : Int × ParState :=
  match tweak_timeout s.b_timeout arg with
  | none => (-1, s)
  | some v => (0, { s with prm := { s.prm with wthread_timeout := v } })

/-- The `thread_pool_watchdog` entry: `tweak_timeout` into `wthread_watchdog`. -/
def set_thread_pool_watchdog (s : ParState) (arg : ℚ) : Int × ParState :=
  match tweak_timeout s.b_watchdog arg with
  | none => (-1, s)
  | some v => (0, { s with prm := { s.prm with wthread_watchdog := v } })

/-- The `thread_pool_destroy_delay` entry: `tweak_timeout` into
`wthread_destroy_delay`. -/
def set_thread_pool_destroy_delay (s : ParState) (arg : ℚ) : Int × ParState :=
  match tweak_timeout s.b_destroy_delay arg with
  | none => (-1, s)
  | some v => (0, { s with prm := { s.prm with wthread_destroy_delay := v } })

/-- The `thread_pool_add_delay` entry: `tweak_timeout` into
`wthread_add_delay`. -/
def set_thread_pool_add_delay (s : ParState) (arg : ℚ) : Int × ParState :=
  match tweak_timeout s.b_add_delay arg with
  | none => (-1, s)
  | some v => (0, { s with prm := { s.prm with wthread_add_delay := v } })

/-- The `thread_pool_fail_delay` entry: `tweak_timeout` into
`wthread_fail_delay`. -/
def set_thread_pool_fail_delay (s : ParState) (arg : ℚ) : Int × ParState :=
  match tweak_timeout s.b_fail_delay arg with
  | none => (-1, s)
  | some v => (0, { s with prm := { s.prm with wthread_fail_delay := v } })

/-- One runtime parameter-update request, dispatched through `WRK_parspec[]`
(`thread_pool_stack` is omitted: its `tweak_bytes` body and platform
default are outside `src/` and no claim concerns it). -/
inductive Action where
  | setPools (v : Nat)
  | setMax (v : Nat)
  | setMin (v : Nat)
  | setReserve (v : Nat)
  | setTimeout (v : ℚ)
  | setWatchdog (v : ℚ)
  | setDestroyDelay (v : ℚ)
  | setAddDelay (v : ℚ)
  | setFailDelay (v : ℚ)
  | setStatsRate (v : Nat)
  | setQueueLimit (v : Nat)
deriving Repr, DecidableEq

/-- Apply one update request; a rejected request leaves the state as is
(the setters return the old state on the `-1` path). -/
def step (s : ParState) : Action → ParState
  | .setPools v => (set_thread_pools s v).2
  | .setMax v => (tweak_thread_pool_max s v).2
  | .setMin v => (tweak_thread_pool_min s v).2
  | .setReserve v => (set_thread_pool_reserve s v).2
  | .setTimeout v => (set_thread_pool_timeout s v).2
  | .setWatchdog v => (set_thread_pool_watchdog s v).2
  | .setDestroyDelay v => (set_thread_pool_destroy_delay s v).2
  | .setAddDelay v => (set_thread_pool_add_delay s v).2
  | .setFailDelay v => (set_thread_pool_fail_delay s v).2
  | .setStatsRate v => (set_thread_stats_rate s v).2
  | .setQueueLimit v => (set_thread_queue_limit s v).2

/-- Apply a sequence of update requests in order. -/
def run (s : ParState) : List Action → ParState
  | [] => s
  | a :: rest => run (step s a) rest

/-- The static bound columns of `WRK_parspec[]` before any value is set:
`thread_pools` min "1" (its maximum is "defined in mgt_param.c", outside
`src/`, hence modelled as absent), `thread_pool_min` min "5", timeouts
"10", "0.1", "0.01", "0", "10e-3", `thread_stats_rate` and
`thread_queue_limit` min "0"; every other column is NULL.  All stored
values start at the C zero state. -/
def tableState : ParState :=
  { prm :=
      { wthread_pools := 0, wthread_min := 0, wthread_max := 0,
        wthread_reserve := 0, wthread_stats_rate := 0, wthread_queue_limit := 0,
        wthread_timeout := 0, wthread_watchdog := 0, wthread_destroy_delay := 0,
        wthread_add_delay := 0, wthread_fail_delay := 0 },
    b_pools := ⟨some 1, none⟩,
    b_max := ⟨none, none⟩,
    b_min := ⟨some 5, none⟩,
    b_reserve := ⟨none, none⟩,
    b_stats_rate := ⟨some 0, none⟩,
    b_queue_limit := ⟨some 0, none⟩,
    b_timeout := ⟨some 10, none⟩,
    b_watchdog := ⟨some (mkRat 1 10), none⟩,
    b_destroy_delay := ⟨some (mkRat 1 100), none⟩,
    b_add_delay := ⟨some 0, none⟩,
    b_fail_delay := ⟨some (mkRat 1 100), none⟩ }

/-- The default column of each `WRK_parspec[]` entry, applied through its
tweak function in table order at startup (the spec's "already-validated"
initial Parameter Set): "2", "5000", "100", "0", "300", "60", "1", "0",
"0.2", "10", "20". -/
def defaults : List Action :=
  [ .setPools 2, .setMax 5000, .setMin 100, .setReserve 0,
    .setTimeout 300, .setWatchdog 60, .setDestroyDelay 1, .setAddDelay 0,
    .setFailDelay (mkRat 2 10), .setStatsRate 10, .setQueueLimit 20 ]

/-- The parameter state after startup default application. -/
def initState : ParState := run tableState defaults

/-- A state the running manager can be in: the startup state followed by
any sequence of (possibly rejected) update requests. -/
def Reachable (s : ParState) : Prop := ∃ acts : List Action, run initState acts = s

/-- The cross-parameter invariant maintained by the runtime update machinery:
the dynamic bounds installed by the two `MCF_ParamConf`-calling setters
link `thread_pool_min`, `thread_pool_max` and `thread_pool_reserve`, the
static bound columns of the other entries are intact, and the stored
values respect `5 ≤ min ≤ max` and `1 ≤ pools`. -/
def Inv (s : ParState) : Prop :=
  s.b_min = ⟨some 5, some s.prm.wthread_max⟩ ∧
  s.b_max = ⟨some s.prm.wthread_min, none⟩ ∧
  s.b_reserve = ⟨none, some (s.prm.wthread_min * 950 % UINT_MAX_SUCC / 1000)⟩ ∧
  s.b_pools = ⟨some 1, none⟩ ∧
  s.b_destroy_delay = ⟨some (mkRat 1 100), none⟩ ∧
  s.b_add_delay = ⟨some 0, none⟩ ∧
  s.b_fail_delay = ⟨some (mkRat 1 100), none⟩ ∧
  5 ≤ s.prm.wthread_min ∧
  s.prm.wthread_min ≤ s.prm.wthread_max ∧
  1 ≤ s.prm.wthread_pools ∧
  s.prm.wthread_max < UINT_MAX_SUCC

/-- Explicit description of `tweak_thread_pool_min` as a conditional. -/
theorem tweak_thread_pool_min_eq (s : ParState) (v : Nat) :
    tweak_thread_pool_min s v =
      if v < UINT_MAX_SUCC ∧ inBoundsN s.b_min v = true then
        (0, { s with
          prm := { s.prm with wthread_min := v },
          b_max := { s.b_max with lo := some v },
          b_reserve := { s.b_reserve with
            hi := some (v * 950 % UINT_MAX_SUCC / 1000) } })
      else (-1, s) := by
  unfold tweak_thread_pool_min tweak_uint
  by_cases h : v < UINT_MAX_SUCC ∧ inBoundsN s.b_min v = true <;> simp [h]

/-- Explicit description of `tweak_thread_pool_max` as a conditional. -/
theorem tweak_thread_pool_max_eq (s : ParState) (v : Nat) :
    tweak_thread_pool_max s v =
      if v < UINT_MAX_SUCC ∧ inBoundsN s.b_max v = true then
        (0, { s with
          prm := { s.prm with wthread_max := v },
          b_min := { s.b_min with hi := some v } })
      else (-1, s) := by
  unfold tweak_thread_pool_max tweak_uint
  by_cases h : v < UINT_MAX_SUCC ∧ inBoundsN s.b_max v = true <;> simp [h]

/-- Explicit description of `set_thread_pools` as a conditional. -/
theorem set_thread_pools_eq (s : ParState) (v : Nat) :
    set_thread_pools s v =
      if v < UINT_MAX_SUCC ∧ inBoundsN s.b_pools v = true then
        (0, { s with prm := { s.prm with wthread_pools := v } })
      else (-1, s) := by
  unfold set_thread_pools tweak_uint
  by_cases h : v < UINT_MAX_SUCC ∧ inBoundsN s.b_pools v = true <;> simp [h]

/-- Explicit description of `set_thread_pool_reserve` as a conditional. -/
theorem set_thread_pool_reserve_eq (s : ParState) (v : Nat) :
    set_thread_pool_reserve s v =
      if v < UINT_MAX_SUCC ∧ inBoundsN s.b_reserve v = true then
        (0, { s with prm := { s.prm with wthread_reserve := v } })
      else (-1, s) := by
  unfold set_thread_pool_reserve tweak_uint
  by_cases h : v < UINT_MAX_SUCC ∧ inBoundsN s.b_reserve v = true <;> simp [h]

/-- Explicit description of `set_thread_stats_rate` as a conditional. -/
theorem set_thread_stats_rate_eq (s : ParState) (v : Nat) :
    set_thread_stats_rate s v =
      if v < UINT_MAX_SUCC ∧ inBoundsN s.b_stats_rate v = true then
        (0, { s with prm := { s.prm with wthread_stats_rate := v } })
      else (-1, s) := by
  unfold set_thread_stats_rate tweak_uint
  by_cases h : v < UINT_MAX_SUCC ∧ inBoundsN s.b_stats_rate v = true <;> simp [h]

/-- Explicit description of `set_thread_queue_limit` as a conditional. -/
theorem set_thread_queue_limit_eq (s : ParState) (v : Nat) :
    set_thread_queue_limit s v =
      if v < UINT_MAX_SUCC ∧ inBoundsN s.b_queue_limit v = true then
        (0, { s with prm := { s.prm with wthread_queue_limit := v } })
      else (-1, s) := by
  unfold set_thread_queue_limit tweak_uint
  by_cases h : v < UINT_MAX_SUCC ∧ inBoundsN s.b_queue_limit v = true <;> simp [h]

/-- Explicit description of `set_thread_pool_timeout` as a conditional. -/
theorem set_thread_pool_timeout_eq (s : ParState) (v : ℚ) :
    set_thread_pool_timeout s v =
      if inBoundsQ s.b_timeout v = true then
        (0, { s with prm := { s.prm with wthread_timeout := v } })
      else (-1, s) := by
  unfold set_thread_pool_timeout tweak_timeout
  by_cases h : inBoundsQ s.b_timeout v = true <;> simp [h]

/-- Explicit description of `set_thread_pool_watchdog` as a conditional. -/
theorem set_thread_pool_watchdog_eq (s : ParState) (v : ℚ) :
    set_thread_pool_watchdog s v =
      if inBoundsQ s.b_watchdog v = true then
        (0, { s with prm := { s.prm with wthread_watchdog := v } })
      else (-1, s) := by
  unfold set_thread_pool_watchdog tweak_timeout
  by_cases h : inBoundsQ s.b_watchdog v = true <;> simp [h]

/-- Explicit description of `set_thread_pool_destroy_delay` as a conditional. -/
theorem set_thread_pool_destroy_delay_eq (s : ParState) (v : ℚ) :
    set_thread_pool_destroy_delay s v =
      if inBoundsQ s.b_destroy_delay v = true then
        (0, { s with prm := { s.prm with wthread_destroy_delay := v } })
      else (-1, s) := by
  unfold set_thread_pool_destroy_delay tweak_timeout
  by_cases h : inBoundsQ s.b_destroy_delay v = true <;> simp [h]

/-- Explicit description of `set_thread_pool_add_delay` as a conditional. -/
theorem set_thread_pool_add_delay_eq (s : ParState) (v : ℚ) :
    set_thread_pool_add_delay s v =
      if inBoundsQ s.b_add_delay v = true then
        (0, { s with prm := { s.prm with wthread_add_delay := v } })
      else (-1, s) := by
  unfold set_thread_pool_add_delay tweak_timeout
  by_cases h : inBoundsQ s.b_add_delay v = true <;> simp [h]

/-- Explicit description of `set_thread_pool_fail_delay` as a conditional. -/
theorem set_thread_pool_fail_delay_eq (s : ParState) (v : ℚ) :
    set_thread_pool_fail_delay s v =
      if inBoundsQ s.b_fail_delay v = true then
        (0, { s with prm := { s.prm with wthread_fail_delay := v } })
      else (-1, s) := by
  unfold set_thread_pool_fail_delay tweak_timeout
  by_cases h : inBoundsQ s.b_fail_delay v = true <;> simp [h]

/-- `Inv` projection: the `thread_pool_min` entry's bounds. -/
theorem Inv.b_min_eq {s : ParState} (h : Inv s) :
    s.b_min = ⟨some 5, some s.prm.wthread_max⟩ := h.1

/-- `Inv` projection: the `thread_pool_max` entry's bounds. -/
theorem Inv.b_max_eq {s : ParState} (h : Inv s) :
    s.b_max = ⟨some s.prm.wthread_min, none⟩ := h.2.1

/-- `Inv` projection: the `thread_pool_reserve` entry's bounds. -/
theorem Inv.b_reserve_eq {s : ParState} (h : Inv s) :
    s.b_reserve = ⟨none, some (s.prm.wthread_min * 950 % UINT_MAX_SUCC / 1000)⟩ :=
  h.2.2.1

/-- `Inv` projection: the `thread_pools` entry's bounds. -/
theorem Inv.b_pools_eq {s : ParState} (h : Inv s) :
    s.b_pools = ⟨some 1, none⟩ := h.2.2.2.1

/-- `Inv` projection: the `thread_pool_destroy_delay` entry's bounds. -/
theorem Inv.b_destroy_eq {s : ParState} (h : Inv s) :
    s.b_destroy_delay = ⟨some (mkRat 1 100), none⟩ := h.2.2.2.2.1

/-- `Inv` projection: the `thread_pool_add_delay` entry's bounds. -/
theorem Inv.b_add_eq {s : ParState} (h : Inv s) :
    s.b_add_delay = ⟨some 0, none⟩ := h.2.2.2.2.2.1

/-- `Inv` projection: the `thread_pool_fail_delay` entry's bounds. -/
theorem Inv.b_fail_eq {s : ParState} (h : Inv s) :
    s.b_fail_delay = ⟨some (mkRat 1 100), none⟩ := h.2.2.2.2.2.2.1

/-- `Inv` projection: the stored minimum respects its static floor of 5. -/
theorem Inv.five_le_min {s : ParState} (h : Inv s) :
    5 ≤ s.prm.wthread_min := h.2.2.2.2.2.2.2.1

/-- `Inv` projection: the stored minimum never exceeds the stored maximum. -/
theorem Inv.min_le_max {s : ParState} (h : Inv s) :
    s.prm.wthread_min ≤ s.prm.wthread_max := h.2.2.2.2.2.2.2.2.1

/-- `Inv` projection: the stored pool count respects its floor of 1. -/
theorem Inv.one_le_pools {s : ParState} (h : Inv s) :
    1 ≤ s.prm.wthread_pools := h.2.2.2.2.2.2.2.2.2.1

/-- The startup state satisfies the cross-parameter invariant. -/
theorem inv_init : Inv initState := by
  unfold Inv
  decide

/-- Every update request — accepted or rejected — preserves the
cross-parameter invariant. -/
theorem inv_step (s : ParState) (a : Action) (h : Inv s) : Inv (step s a) := by
  obtain ⟨hmin, hmax, hres, hpools, hdd, had, hfd, h5, hmm, hp1, hlt⟩ := h
  cases a with
  | setPools v =>
      simp only [step, set_thread_pools_eq]
      split
      · exact ⟨hmin, hmax, hres, hpools, hdd, had, hfd, h5, hmm, by
          rename_i hc
          rcases hc with ⟨-, hb⟩
          rw [hpools] at hb
          simpa [inBoundsN] using hb, hlt⟩
      · exact ⟨hmin, hmax, hres, hpools, hdd, had, hfd, h5, hmm, hp1, hlt⟩
  | setMax v =>
      simp only [step, tweak_thread_pool_max_eq]
      split
      · rename_i hc
        rcases hc with ⟨hlt2, hb⟩
        rw [hmax] at hb
        simp only [inBoundsN, Bool.and_eq_true, decide_eq_true_eq] at hb
        refine ⟨?_, ?_, ?_, hpools, hdd, had, hfd, h5, ?_, hp1, ?_⟩
        · simp [hmin]
        · simpa using hmax
        · simpa using hres
        · simpa using hb
        · simpa using hlt2
      · exact ⟨hmin, hmax, hres, hpools, hdd, had, hfd, h5, hmm, hp1, hlt⟩
  | setMin v =>
      simp only [step, tweak_thread_pool_min_eq]
      split
      · rename_i hc
        rcases hc with ⟨-, hb⟩
        rw [hmin] at hb
        simp only [inBoundsN, Bool.and_eq_true, decide_eq_true_eq] at hb
        refine ⟨?_, ?_, ?_, hpools, hdd, had, hfd, ?_, ?_, hp1, hlt⟩
        · simp [hmin]
        · simp [hmax]
        · simp [hres]
        · simpa using hb.1
        · simpa using hb.2
      · exact ⟨hmin, hmax, hres, hpools, hdd, had, hfd, h5, hmm, hp1, hlt⟩
  | setReserve v =>
      simp only [step, set_thread_pool_reserve_eq]
      split <;>
        exact ⟨hmin, hmax, hres, hpools, hdd, had, hfd, h5, hmm, hp1, hlt⟩
  | setTimeout v =>
      simp only [step, set_thread_pool_timeout_eq]
      split <;>
        exact ⟨hmin, hmax, hres, hpools, hdd, had, hfd, h5, hmm, hp1, hlt⟩
  | setWatchdog v =>
      simp only [step, set_thread_pool_watchdog_eq]
      split <;>
        exact ⟨hmin, hmax, hres, hpools, hdd, had, hfd, h5, hmm, hp1, hlt⟩
  | setDestroyDelay v =>
      simp only [step, set_thread_pool_destroy_delay_eq]
      split <;>
        exact ⟨hmin, hmax, hres, hpools, hdd, had, hfd, h5, hmm, hp1, hlt⟩
  | setAddDelay v =>
      simp only [step, set_thread_pool_add_delay_eq]
      split <;>
        exact ⟨hmin, hmax, hres, hpools, hdd, had, hfd, h5, hmm, hp1, hlt⟩
  | setFailDelay v =>
      simp only [step, set_thread_pool_fail_delay_eq]
      split <;>
        exact ⟨hmin, hmax, hres, hpools, hdd, had, hfd, h5, hmm, hp1, hlt⟩
  | setStatsRate v =>
      simp only [step, set_thread_stats_rate_eq]
      split <;>
        exact ⟨hmin, hmax, hres, hpools, hdd, had, hfd, h5, hmm, hp1, hlt⟩
  | setQueueLimit v =>
      simp only [step, set_thread_queue_limit_eq]
      split <;>
        exact ⟨hmin, hmax, hres, hpools, hdd, had, hfd, h5, hmm, hp1, hlt⟩

/-- The invariant is carried along any run. -/
theorem inv_run (s : ParState) (acts : List Action) (h : Inv s) :
    Inv (run s acts) := by
  induction acts generalizing s with
  | nil => exact h
  | cons a rest ih => exact ih (step s a) (inv_step s a h)

/-- Every reachable parameter state satisfies the invariant. -/
theorem inv_reachable (s : ParState) (h : Reachable s) : Inv s := by
  obtain ⟨acts, rfl⟩ := h
  exact inv_run initState acts inv_init

example : initState.prm.wthread_min = 100 := by decide
example : initState.prm.wthread_max = 5000 := by decide
example : initState.b_reserve.hi = some 95 := by decide
example : initState.b_min = ⟨some 5, some 5000⟩ := by decide
example : initState.b_max = ⟨some 100, none⟩ := by decide
example : initState.prm.wthread_fail_delay = mkRat 1 5 := by decide

/-- A `thread_pool_min` update succeeds exactly when the requested value is
representable and inside the entry's current bounds. -/
theorem tweak_thread_pool_min_ok_iff (s : ParState) (v : Nat) :
    (tweak_thread_pool_min s v).1 = 0 ↔
      (v < UINT_MAX_SUCC ∧ inBoundsN s.b_min v = true) := by
  by_cases h : v < UINT_MAX_SUCC ∧ inBoundsN s.b_min v = true <;>
    simp [tweak_thread_pool_min_eq, h]

/-- A `thread_pool_max` update succeeds exactly when the requested value is
representable and inside the entry's current bounds. -/
theorem tweak_thread_pool_max_ok_iff (s : ParState) (v : Nat) :
    (tweak_thread_pool_max s v).1 = 0 ↔
      (v < UINT_MAX_SUCC ∧ inBoundsN s.b_max v = true) := by
  by_cases h : v < UINT_MAX_SUCC ∧ inBoundsN s.b_max v = true <;>
    simp [tweak_thread_pool_max_eq, h]

/-- A `thread_pool_reserve` update succeeds exactly when the requested value
is representable and inside the entry's current bounds. -/
theorem set_thread_pool_reserve_ok_iff (s : ParState) (v : Nat) :
    (set_thread_pool_reserve s v).1 = 0 ↔
      (v < UINT_MAX_SUCC ∧ inBoundsN s.b_reserve v = true) := by
  by_cases h : v < UINT_MAX_SUCC ∧ inBoundsN s.b_reserve v = true <;>
    simp [set_thread_pool_reserve_eq, h]

/-- A `thread_pools` update succeeds exactly when the requested value is
representable and inside the entry's current bounds. -/
theorem set_thread_pools_ok_iff (s : ParState) (v : Nat) :
    (set_thread_pools s v).1 = 0 ↔
      (v < UINT_MAX_SUCC ∧ inBoundsN s.b_pools v = true) := by
  by_cases h : v < UINT_MAX_SUCC ∧ inBoundsN s.b_pools v = true <;>
    simp [set_thread_pools_eq, h]

/-- Exact-arithmetic reading of the C expression `m * 950 / 1000`: it is
the floor of ninety-five percent of `m`. -/
theorem floor_95_percent (m : Nat) :
    Nat.floor ((mkRat 95 100) * (m : ℚ)) = m * 950 / 1000 := by
  have h : (mkRat 95 100) * (m : ℚ) = ((m * 950 : ℕ) : ℚ) / ((1000 : ℕ) : ℚ) := by
    rw [Rat.mkRat_eq_div]
    push_cast
    ring
  rw [h, Nat.floor_div_nat, Nat.floor_natCast]

/-- Claim C1, counterexample to the reserve part: from the startup state,
set `thread_pool_reserve` to 90 (accepted, ceiling is 95) and then
successfully lower `thread_pool_min` to 10.  The min update succeeds, yet
afterwards the stored reserve (90) exceeds `0.95 · min_threads` (9.5): the
recomputed ceiling constrains only future reserve updates, the stored
reserve is not re-validated. -/
theorem C1_counterexample :
    (tweak_thread_pool_min (set_thread_pool_reserve initState 90).2 10).1 = 0 ∧
    ¬ (((tweak_thread_pool_min (set_thread_pool_reserve initState 90).2
          10).2.prm.wthread_reserve : ℚ) ≤
        mkRat 95 100 *
        ((tweak_thread_pool_min (set_thread_pool_reserve initState 90).2
          10).2.prm.wthread_min : ℚ)) := by
  have h1 : (tweak_thread_pool_min (set_thread_pool_reserve initState 90).2
      10).2.prm.wthread_reserve = 90 := by decide
  have h2 : (tweak_thread_pool_min (set_thread_pool_reserve initState 90).2
      10).2.prm.wthread_min = 10 := by decide
  refine ⟨by decide, ?_⟩
  rw [h1, h2, Rat.mkRat_eq_div]
  norm_num

/-- Claim C1 (amended): after any `thread_pool_min` or `thread_pool_max`
update — successful or not — from a reachable state,
`min_threads ≤ max_threads` holds (the min setter raises thread_pool_max's
minimum bound and the max setter lowers thread_pool_min's maximum bound, so
the two can never cross); a successful min update to `v` installs
`v * 950 / 1000` (unsigned arithmetic) as thread_pool_reserve's new ceiling
but leaves the stored reserve value itself untouched, so
`reserve ≤ 0.95 · min_threads` need not hold afterwards. -/
theorem C1_amended (s : ParState) (v w : Nat) (hs : Reachable s) :
    (tweak_thread_pool_min s v).2.prm.wthread_min ≤
      (tweak_thread_pool_min s v).2.prm.wthread_max ∧
    (tweak_thread_pool_max s w).2.prm.wthread_min ≤
      (tweak_thread_pool_max s w).2.prm.wthread_max ∧
    ((tweak_thread_pool_min s v).1 = 0 →
      (tweak_thread_pool_min s v).2.b_reserve.hi =
        some (v * 950 % UINT_MAX_SUCC / 1000) ∧
      (tweak_thread_pool_min s v).2.prm.wthread_reserve =
        s.prm.wthread_reserve) := by
  have h1 := inv_step s (.setMin v) (inv_reachable s hs)
  have h2 := inv_step s (.setMax w) (inv_reachable s hs)
  refine ⟨h1.min_le_max, h2.min_le_max, ?_⟩
  intro hok
  by_cases h : v < UINT_MAX_SUCC ∧ inBoundsN s.b_min v = true
  · constructor <;> simp [tweak_thread_pool_min_eq, h]
  · simp [tweak_thread_pool_min_eq, h] at hok

/-- Claim C1 witness: instance at the startup state with requests
`min := 200` and `max := 300`. -/
theorem C1_witness :
    (tweak_thread_pool_min initState 200).2.prm.wthread_min ≤
      (tweak_thread_pool_min initState 200).2.prm.wthread_max ∧
    (tweak_thread_pool_max initState 300).2.prm.wthread_min ≤
      (tweak_thread_pool_max initState 300).2.prm.wthread_max ∧
    ((tweak_thread_pool_min initState 200).1 = 0 →
      (tweak_thread_pool_min initState 200).2.b_reserve.hi =
        some (200 * 950 % UINT_MAX_SUCC / 1000) ∧
      (tweak_thread_pool_min initState 200).2.prm.wthread_reserve =
        initState.prm.wthread_reserve) :=
  C1_amended initState 200 300 ⟨[], rfl⟩

/-- Claim C2: when `tweak_uint` range validation fails for a
`thread_pool_min` or `thread_pool_max` update, the setter returns `-1` and
the whole parameter state — stored values and every dependent bound — is
exactly the state before the call; the dependent-bound recomputation runs
only after successful validation. -/
theorem C2_theorem (s : ParState) (v w : Nat)
    (h1 : tweak_uint s.b_min v = none) (h2 : tweak_uint s.b_max w = none) :
    tweak_thread_pool_min s v = (-1, s) ∧
    tweak_thread_pool_max s w = (-1, s) := by
  constructor
  · unfold tweak_thread_pool_min
    rw [h1]
  · unfold tweak_thread_pool_max
    rw [h2]

/-- Claim C2 witness: at the startup state the request `3` fails validation
for both entries (below min 5 resp. below the installed minimum 100) and
leaves the state untouched. -/
theorem C2_witness :
    tweak_thread_pool_min initState 3 = (-1, initState) ∧
    tweak_thread_pool_max initState 3 = (-1, initState) :=
  C2_theorem initState 3 3 (by decide) (by decide)

/-- Claim C3, counterexample: at the startup state (ceiling 95) the reserve
update to `1` is a valid parameter update, and afterwards the stored
reserve value is `1 < 5`; the setter enforces no lower bound (the entry's
minimum column is NULL), so `reserve ≥ 5` fails for the stored value. -/
theorem C3_counterexample :
    (set_thread_pool_reserve initState 1).1 = 0 ∧
    (set_thread_pool_reserve initState 1).2.prm.wthread_reserve = 1 ∧
    ¬ (5 ≤ (set_thread_pool_reserve initState 1).2.prm.wthread_reserve) := by
  decide

/-- Claim C3 (amended): a valid `thread_pool_reserve` update stores exactly
the requested value, bounded above by the installed ceiling
(95% of the minimum at the last `thread_pool_min` update) but by no lower
bound: stored values below 5 — down to the default 0 — are accepted.  The
floor of 5 internal priority classes promised by the parameter
documentation applies to the effective value computed in the worker, not
to the stored parameter. -/
theorem C3_amended (s : ParState) (r : Nat) (hs : Reachable s)
    (hok : (set_thread_pool_reserve s r).1 = 0) :
    (set_thread_pool_reserve s r).2.prm.wthread_reserve = r ∧
    r ≤ s.prm.wthread_min * 950 % UINT_MAX_SUCC / 1000 := by
  have hi := inv_reachable s hs
  by_cases h : r < UINT_MAX_SUCC ∧ inBoundsN s.b_reserve r = true
  · refine ⟨by simp [set_thread_pool_reserve_eq, h], ?_⟩
    have hb := h.2
    rw [hi.b_reserve_eq] at hb
    simpa [inBoundsN] using hb
  · simp [set_thread_pool_reserve_eq, h] at hok

/-- Claim C3 witness: instance at the startup state with request
`reserve := 1`. -/
theorem C3_witness :
    (set_thread_pool_reserve initState 1).2.prm.wthread_reserve = 1 ∧
    1 ≤ initState.prm.wthread_min * 950 % UINT_MAX_SUCC / 1000 :=
  C3_amended initState 1 ⟨[], rfl⟩ (by decide)

/-- Claim C4: a successful `thread_pool_min` update to `m` installs
`m * 950 / 1000` in unsigned arithmetic — i.e. `(m * 950) mod 2^32 / 1000`,
which below the wrap point is `⌊0.95 · m⌋` — as `thread_pool_reserve`'s
new maximum bound, and a subsequently attempted reserve value `r`
(representable as `unsigned`) is accepted against this ceiling exactly
when `r ≤ m * 950 / 1000`. -/
theorem C4_theorem (s : ParState) (m r : Nat) (hs : Reachable s)
    (hok : (tweak_thread_pool_min s m).1 = 0) (hr : r < UINT_MAX_SUCC) :
    (tweak_thread_pool_min s m).2.b_reserve.hi =
      some (m * 950 % UINT_MAX_SUCC / 1000) ∧
    (m * 950 < UINT_MAX_SUCC →
      m * 950 % UINT_MAX_SUCC / 1000 = m * 950 / 1000 ∧
      m * 950 / 1000 = Nat.floor ((mkRat 95 100) * (m : ℚ))) ∧
    ((set_thread_pool_reserve (tweak_thread_pool_min s m).2 r).1 = 0 ↔
      r ≤ m * 950 % UINT_MAX_SUCC / 1000) := by
  have hi := inv_reachable s hs
  by_cases h : m < UINT_MAX_SUCC ∧ inBoundsN s.b_min m = true
  · refine ⟨by simp [tweak_thread_pool_min_eq, h], ?_, ?_⟩
    · intro hlt
      exact ⟨by rw [Nat.mod_eq_of_lt hlt], (floor_95_percent m).symm⟩
    · have hres : (tweak_thread_pool_min s m).2.b_reserve =
          ⟨s.b_reserve.lo, some (m * 950 % UINT_MAX_SUCC / 1000)⟩ := by
        simp [tweak_thread_pool_min_eq, h]
      have hlo : s.b_reserve.lo = none := by rw [hi.b_reserve_eq]
      rw [set_thread_pool_reserve_ok_iff, hres, hlo]
      simp [inBoundsN, hr]
  · simp [tweak_thread_pool_min_eq, h] at hok

/-- Claim C4 witness: instance at the startup state with `min := 20`; the
installed ceiling is 19 and `reserve := 19` is exactly at the ceiling. -/
theorem C4_witness :
    (tweak_thread_pool_min initState 20).2.b_reserve.hi =
      some (20 * 950 % UINT_MAX_SUCC / 1000) ∧
    (20 * 950 < UINT_MAX_SUCC →
      20 * 950 % UINT_MAX_SUCC / 1000 = 20 * 950 / 1000 ∧
      20 * 950 / 1000 = Nat.floor ((mkRat 95 100) * ((20 : Nat) : ℚ))) ∧
    ((set_thread_pool_reserve (tweak_thread_pool_min initState 20).2 19).1 = 0 ↔
      19 ≤ 20 * 950 % UINT_MAX_SUCC / 1000) :=
  C4_theorem initState 20 19 ⟨[], rfl⟩ (by decide) (by decide)

/-- Claim C5, counterexample: the startup pool count is 2 and the request
`thread_pools := 1` — a lowering — is accepted (`tweak_uint` checks only
the entry's bounds, minimum 1) and stores the lower value; the stored pool
count does decrease.  Only the running pools survive until restart, per
the parameter's own documentation. -/
theorem C5_counterexample :
    initState.prm.wthread_pools = 2 ∧
    (set_thread_pools initState 1).1 = 0 ∧
    (set_thread_pools initState 1).2.prm.wthread_pools = 1 := by
  decide

/-- Claim C5 (amended): the `thread_pools` setter accepts any representable
value `≥ 1`, whether above or below the current count, and stores it: a
lowering request is not rejected at the update call; only the removal of
running pools is deferred to a restart (outside this code). -/
theorem C5_amended (s : ParState) (v : Nat) (hs : Reachable s)
    (h1 : 1 ≤ v) (h2 : v < UINT_MAX_SUCC) :
    (set_thread_pools s v).1 = 0 ∧
    (set_thread_pools s v).2.prm.wthread_pools = v := by
  have hi := inv_reachable s hs
  have hcond : v < UINT_MAX_SUCC ∧ inBoundsN s.b_pools v = true := by
    refine ⟨h2, ?_⟩
    rw [hi.b_pools_eq]
    simpa [inBoundsN] using h1
  constructor <;> simp [set_thread_pools_eq, hcond]

/-- Claim C5 witness: instance at the startup state (pool count 2) with the
lowering request `thread_pools := 1`. -/
theorem C5_witness :
    (set_thread_pools initState 1).1 = 0 ∧
    (set_thread_pools initState 1).2.prm.wthread_pools = 1 :=
  C5_amended initState 1 ⟨[], rfl⟩ (by decide) (by decide)

/-- Claim C6: the `thread_pool_min` setter rejects (returns `-1`, changing
nothing) every value below its static lower bound 5, so in every reachable
state `min_threads ≥ 5 > 0`; and `max_threads > 0` as well, because
`thread_pool_max`'s installed minimum bound tracks the stored
`thread_pool_min`. -/
theorem C6_theorem (s : ParState) (v : Nat) (hs : Reachable s) (hv : v < 5) :
    tweak_thread_pool_min s v = (-1, s) ∧
    5 ≤ s.prm.wthread_min ∧
    0 < s.prm.wthread_max ∧
    s.b_max.lo = some s.prm.wthread_min := by
  have hi := inv_reachable s hs
  refine ⟨?_, hi.five_le_min, ?_, ?_⟩
  · rw [tweak_thread_pool_min_eq]
    have hno : ¬ (v < UINT_MAX_SUCC ∧ inBoundsN s.b_min v = true) := by
      rintro ⟨-, hb⟩
      rw [hi.b_min_eq] at hb
      simp [inBoundsN] at hb
      omega
    simp [hno]
  · have := le_trans hi.five_le_min hi.min_le_max
    omega
  · rw [hi.b_max_eq]

/-- Claim C6 witness: instance at the startup state with the rejected
request `min := 3`. -/
theorem C6_witness :
    tweak_thread_pool_min initState 3 = (-1, initState) ∧
    5 ≤ initState.prm.wthread_min ∧
    0 < initState.prm.wthread_max ∧
    initState.b_max.lo = some initState.prm.wthread_min :=
  C6_theorem initState 3 ⟨[], rfl⟩ (by decide)

/-- Claim C7, counterexample: the non-negative value 0 is rejected by the
`thread_pool_destroy_delay` setter (static minimum "0.01") and by the
`thread_pool_fail_delay` setter (static minimum "10e-3"); only
`thread_pool_add_delay` (minimum "0") accepts every non-negative value. -/
theorem C7_counterexample :
    set_thread_pool_destroy_delay initState 0 = (-1, initState) ∧
    set_thread_pool_fail_delay initState 0 = (-1, initState) := by
  decide

/-- Claim C7 (amended): in every reachable state the `thread_pool_add_delay`
setter accepts exactly the values `≥ 0`, while the
`thread_pool_destroy_delay` and `thread_pool_fail_delay` setters accept
exactly the values `≥ 0.01` (their static minima "0.01" and "10e-3");
all three reject every negative value. -/
theorem C7_amended (s : ParState) (v : ℚ) (hs : Reachable s) :
    ((set_thread_pool_add_delay s v).1 = 0 ↔ 0 ≤ v) ∧
    ((set_thread_pool_destroy_delay s v).1 = 0 ↔ mkRat 1 100 ≤ v) ∧
    ((set_thread_pool_fail_delay s v).1 = 0 ↔ mkRat 1 100 ≤ v) ∧
    (v < 0 →
      (set_thread_pool_add_delay s v).1 = -1 ∧
      (set_thread_pool_destroy_delay s v).1 = -1 ∧
      (set_thread_pool_fail_delay s v).1 = -1) := by
  have hi := inv_reachable s hs
  have hpos : (0 : ℚ) < mkRat 1 100 := by decide
  have hb1 : inBoundsQ s.b_add_delay v = true ↔ 0 ≤ v := by
    rw [hi.b_add_eq]
    simp [inBoundsQ]
  have hb2 : inBoundsQ s.b_destroy_delay v = true ↔ mkRat 1 100 ≤ v := by
    rw [hi.b_destroy_eq]
    simp [inBoundsQ]
  have hb3 : inBoundsQ s.b_fail_delay v = true ↔ mkRat 1 100 ≤ v := by
    rw [hi.b_fail_eq]
    simp [inBoundsQ]
  have g1 : (set_thread_pool_add_delay s v).1 = 0 ↔ 0 ≤ v := by
    rw [set_thread_pool_add_delay_eq]
    by_cases h : inBoundsQ s.b_add_delay v = true
    · simp [h, hb1.mp h]
    · simp [h]
      exact not_le.mp fun hc => h (hb1.mpr hc)
  have g2 : (set_thread_pool_destroy_delay s v).1 = 0 ↔ mkRat 1 100 ≤ v := by
    rw [set_thread_pool_destroy_delay_eq]
    by_cases h : inBoundsQ s.b_destroy_delay v = true
    · simp [h, hb2.mp h]
    · simp [h]
      exact not_le.mp fun hc => h (hb2.mpr hc)
  have g3 : (set_thread_pool_fail_delay s v).1 = 0 ↔ mkRat 1 100 ≤ v := by
    rw [set_thread_pool_fail_delay_eq]
    by_cases h : inBoundsQ s.b_fail_delay v = true
    · simp [h, hb3.mp h]
    · simp [h]
      exact not_le.mp fun hc => h (hb3.mpr hc)
  refine ⟨g1, g2, g3, ?_⟩
  intro hneg
  have n1 : ¬ (0 ≤ v) := not_le.mpr hneg
  have n2 : ¬ (mkRat 1 100 ≤ v) := not_le.mpr (hneg.trans hpos)
  refine ⟨?_, ?_, ?_⟩
  · rw [set_thread_pool_add_delay_eq, if_neg fun hc => n1 (hb1.mp hc)]
  · rw [set_thread_pool_destroy_delay_eq, if_neg fun hc => n2 (hb2.mp hc)]
  · rw [set_thread_pool_fail_delay_eq, if_neg fun hc => n2 (hb3.mp hc)]

/-- Claim C7 witness: instance at the startup state with the value 1, which
all three delay setters accept. -/
theorem C7_witness :
    ((set_thread_pool_add_delay initState 1).1 = 0 ↔ (0 : ℚ) ≤ 1) ∧
    ((set_thread_pool_destroy_delay initState 1).1 = 0 ↔ mkRat 1 100 ≤ 1) ∧
    ((set_thread_pool_fail_delay initState 1).1 = 0 ↔ mkRat 1 100 ≤ 1) ∧
    ((1 : ℚ) < 0 →
      (set_thread_pool_add_delay initState 1).1 = -1 ∧
      (set_thread_pool_destroy_delay initState 1).1 = -1 ∧
      (set_thread_pool_fail_delay initState 1).1 = -1) :=
  C7_amended initState 1 ⟨[], rfl⟩

/-- Claim C8: the `thread_pools` setter rejects (returns `-1`, changing
nothing) every value below its static minimum 1, so in every reachable
state the stored pool count is at least 1. -/
theorem C8_theorem (s : ParState) (v : Nat) (hs : Reachable s) (hv : v < 1) :
    set_thread_pools s v = (-1, s) ∧ 1 ≤ s.prm.wthread_pools := by
  have hi := inv_reachable s hs
  refine ⟨?_, hi.one_le_pools⟩
  rw [set_thread_pools_eq]
  have hno : ¬ (v < UINT_MAX_SUCC ∧ inBoundsN s.b_pools v = true) := by
    rintro ⟨-, hb⟩
    rw [hi.b_pools_eq] at hb
    simp [inBoundsN] at hb
    omega
  simp [hno]

/-- Claim C8 witness: instance at the startup state with the rejected
request `thread_pools := 0`. -/
theorem C8_witness :
    set_thread_pools initState 0 = (-1, initState) ∧
    1 ≤ initState.prm.wthread_pools :=
  C8_theorem initState 0 ⟨[], rfl⟩ (by decide)

/-- Claim C9: a successful `thread_pool_max` update to `v` changes exactly
the stored `wthread_max` and `thread_pool_min`'s maximum bound, nothing
else: in particular the stored minimum, the stored reserve and
`thread_pool_reserve`'s entire bound pair are untouched, so the reserve
ceiling still reflects the last `thread_pool_min` value set. -/
theorem C9_theorem (s : ParState) (v : Nat) (hs : Reachable s)
    (hok : (tweak_thread_pool_max s v).1 = 0) :
    (tweak_thread_pool_max s v).2 =
      { s with
        prm := { s.prm with wthread_max := v },
        b_min := { s.b_min with hi := some v } } ∧
    (tweak_thread_pool_max s v).2.b_reserve = s.b_reserve ∧
    (tweak_thread_pool_max s v).2.prm.wthread_min = s.prm.wthread_min ∧
    (tweak_thread_pool_max s v).2.prm.wthread_reserve =
      s.prm.wthread_reserve ∧
    (tweak_thread_pool_max s v).2.b_reserve.hi =
      some (s.prm.wthread_min * 950 % UINT_MAX_SUCC / 1000) := by
  have hi := inv_reachable s hs
  by_cases h : v < UINT_MAX_SUCC ∧ inBoundsN s.b_max v = true
  · refine ⟨?_, ?_, ?_, ?_, ?_⟩
    · simp [tweak_thread_pool_max_eq, h]
    · simp [tweak_thread_pool_max_eq, h]
    · simp [tweak_thread_pool_max_eq, h]
    · simp [tweak_thread_pool_max_eq, h]
    · have hr : s.b_reserve.hi =
          some (s.prm.wthread_min * 950 % UINT_MAX_SUCC / 1000) := by
        rw [hi.b_reserve_eq]
      rw [← hr]
      simp [tweak_thread_pool_max_eq, h]
  · simp [tweak_thread_pool_max_eq, h] at hok

/-- Claim C9 witness: instance at the startup state with the accepted
request `max := 300`. -/
theorem C9_witness :
    (tweak_thread_pool_max initState 300).2 =
      { initState with
        prm := { initState.prm with wthread_max := 300 },
        b_min := { initState.b_min with hi := some 300 } } ∧
    (tweak_thread_pool_max initState 300).2.b_reserve = initState.b_reserve ∧
    (tweak_thread_pool_max initState 300).2.prm.wthread_min =
      initState.prm.wthread_min ∧
    (tweak_thread_pool_max initState 300).2.prm.wthread_reserve =
      initState.prm.wthread_reserve ∧
    (tweak_thread_pool_max initState 300).2.b_reserve.hi =
      some (initState.prm.wthread_min * 950 % UINT_MAX_SUCC / 1000) :=
  C9_theorem initState 300 ⟨[], rfl⟩ (by decide)

/-- Claim C10, counterexample to the "for every m in [5, 9]" part: `m = 6`
lies in `[5, 9]`, the min update to 6 succeeds from the startup state, and
the installed reserve ceiling is `6 * 950 / 1000 = 5`, which is not below
5. -/
theorem C10_counterexample :
    (5 : Nat) ≤ 6 ∧ (6 : Nat) ≤ 9 ∧
    (tweak_thread_pool_min initState 6).1 = 0 ∧
    (tweak_thread_pool_min initState 6).2.b_reserve.hi =
      some (6 * 950 / 1000) ∧
    ¬ (6 * 950 / 1000 < 5) := by
  decide

/-- Claim C10 (amended): a `thread_pool_min` update to any accepted
`m ∈ [5, 9]` installs `m * 950 / 1000 = m - 1` as the reserve ceiling; this
ceiling is strictly below the 5 internal priority classes promised as the
effective floor exactly for `m = 5` (where the maximum settable reserve is
4), not for all of `[5, 9]`. -/
theorem C10_amended (s : ParState) (m : Nat) (hs : Reachable s)
    (h5 : 5 ≤ m) (h9 : m ≤ 9) (hle : m ≤ s.prm.wthread_max) :
    (tweak_thread_pool_min s m).1 = 0 ∧
    (tweak_thread_pool_min s m).2.b_reserve.hi = some (m - 1) ∧
    (m - 1 < 5 ↔ m = 5) := by
  have hi := inv_reachable s hs
  have hcond : m < UINT_MAX_SUCC ∧ inBoundsN s.b_min m = true := by
    refine ⟨?_, ?_⟩
    · unfold UINT_MAX_SUCC
      omega
    · rw [hi.b_min_eq]
      simp [inBoundsN]
      exact ⟨h5, hle⟩
  have hkey : m * 950 % UINT_MAX_SUCC / 1000 = m - 1 := by
    interval_cases m <;> decide
  refine ⟨?_, ?_, ?_⟩
  · simp [tweak_thread_pool_min_eq, hcond]
  · simp [tweak_thread_pool_min_eq, hcond, hkey]
  · omega

/-- Claim C10 witness: instance at the startup state with `min := 5`, the
smallest accepted minimum: the installed ceiling is `4 < 5`. -/
theorem C10_witness :
    (tweak_thread_pool_min initState 5).1 = 0 ∧
    (tweak_thread_pool_min initState 5).2.b_reserve.hi = some (5 - 1) ∧
    (5 - 1 < 5 ↔ 5 = 5) :=
  C10_amended initState 5 ⟨[], rfl⟩ (by decide) (by decide) (by decide)

end MgtPool
